import Mathlib

/-!
Verification of the contribution registry (src/environment/providers/contribution.ts).

The development shallowly embeds the registry's data model and operations:
merging of contributions (mergeContributions), conditional filtering of menu
items (contextFilter, filterContributions), template interpolation of command
display fields (evaluateContributions), the per-entry fault isolation of the
registry pipeline (getContributions), the entry store operations
(registerContributions, deregisterEntry, replaceContributions) and the
change-detecting publisher (distinctUntilChanged).

External collaborators (the expression evaluator, the template evaluator, the
needs-evaluation predicate and the child-context constructor) are parameters
throughout, exactly as they are injectable parameters or imported collaborators
in the source.  Fallible evaluator calls are modelled in the Except monad:
a TypeScript exception is an Except.error value.
-/

/-- Modelled from the spec: the protocol module defining ContributableMenu is
not part of the given sources.  The spec describes menus as a mapping from menu
identifiers to item sequences with unique keys whose order is irrelevant; a
small fixed enumeration of menu identifiers is enough to model it. -/
inductive ContributableMenu : Type
  | commandPalette
  | editorTitle
  | help
deriving DecidableEq

/-- The enumeration order used when a computation has to visit every menu key. -/
def ContributableMenu.all : List ContributableMenu :=
  [.commandPalette, .editorTitle, .help]

instance : Fintype ContributableMenu :=
  ⟨⟨{ContributableMenu.commandPalette, ContributableMenu.editorTitle, ContributableMenu.help}, by decide⟩,
   by intro x; cases x <;> decide⟩

/-- Modelled from the spec: the protocol module defining MenuItemContribution is
not part of the given sources.  A menu item places a command in a menu and
carries an optional boolean expression string gating its visibility. -/
structure MenuItemContribution where
  action : String
  when : Option String := none
deriving DecidableEq

/-- Modelled from the spec: the protocol module defining ActionItem is not part
of the given sources.  All five display fields are optionally-templated
strings. -/
structure ActionItem where
  label : Option String := none
  description : Option String := none
  group : Option String := none
  iconURL : Option String := none
  iconDescription : Option String := none
deriving DecidableEq

/-- Modelled from the spec: the protocol module defining CommandContribution is
not part of the given sources.  A command identifier plus optionally-templated
display fields and an optional nested ActionItem. -/
structure CommandContribution where
  command : String
  title : Option String := none
  category : Option String := none
  description : Option String := none
  iconURL : Option String := none
  actionItem : Option ActionItem := none
deriving DecidableEq

/-- Modelled from the spec: menus are a mapping from menu identifier to an
ordered item sequence; a key may be absent (none) or present with a possibly
empty sequence.  Key insertion order is irrelevant per the spec, so a total
function into Option is the model of the JavaScript object. -/
abbrev MenuContributions := ContributableMenu → Option (List MenuItemContribution)

/-- Modelled from the spec: the protocol module defining Contributions is not
part of the given sources.  Both facets are optional/absent-by-default. -/
structure Contributions where
  commands : Option (List CommandContribution) := none
  menus : Option MenuContributions := none

instance : DecidableEq Contributions := fun a b =>
  decidable_of_iff (a.commands = b.commands ∧ a.menus = b.menus)
    (by cases a; cases b; simp)

/-- The empty Contributions value, written as a bare object literal in the
source. -/
def emptyContributions : Contributions := {}

/-- The inner for-loop of mergeContributions over the entries of one input's
menus object (lines 128-134 of contribution.ts): per key, append the input's
item sequence onto the accumulator's sequence, creating the key if absent.
Keys absent from the input are left untouched. -/
def mergeMenus (mm cm : MenuContributions) : MenuContributions :=
  fun menu =>
    match cm menu with
    | none => mm menu
    | some items =>
      match mm menu with
      | none => some items
      | some old => some (old ++ items)

/-- The commands half of the merge loop body (lines 117-123 of
contribution.ts). -/
def mergeCommandsFacet (merged c : Option (List CommandContribution)) :
    Option (List CommandContribution) :=
  match c with
  | none => merged
  | some cs =>
    match merged with
    | none => some cs
    | some ms => some (ms ++ cs)

/-- The menus half of the merge loop body (lines 124-136 of contribution.ts). -/
def mergeMenusFacet (merged c : Option MenuContributions) : Option MenuContributions :=
  match c with
  | none => merged
  | some cm =>
    match merged with
    | none => some cm
    | some mm => some (mergeMenus mm cm)

/-- One iteration of the merge loop in mergeContributions: fold the
contributions of one input into the accumulator.  Mirrors the body of the
for-loop over the inputs (lines 116-137 of contribution.ts). -/
def mergeStep (merged c : Contributions) : Contributions :=
  { commands := mergeCommandsFacet merged.commands c.commands,
    menus := mergeMenusFacet merged.menus c.menus }

/-- Merges the contributions (mergeContributions in contribution.ts): zero
inputs give the empty object, one input is returned unchanged, otherwise the
inputs are folded into a fresh accumulator in input order. -/
def mergeContributions (contributions : List Contributions) : Contributions :=
  match contributions with
  | [] => {}
  | [c] => c
  | cs => cs.foldl mergeStep {}

theorem mergeStep_empty_left (c : Contributions) : mergeStep {} c = c := by
  cases c with
  | mk commands menus =>
    cases commands <;> cases menus <;> rfl

theorem mergeStep_empty_right (c : Contributions) : mergeStep c {} = c := by
  cases c with
  | mk commands menus =>
    cases commands <;> cases menus <;> rfl

theorem mergeMenus_assoc (a b c : MenuContributions) :
    mergeMenus (mergeMenus a b) c = mergeMenus a (mergeMenus b c) := by
  funext menu
  simp only [mergeMenus]
  rcases a menu with _ | la <;> rcases b menu with _ | lb <;> rcases c menu with _ | lc <;>
    simp [List.append_assoc]

theorem mergeCommandsFacet_assoc (a b c : Option (List CommandContribution)) :
    mergeCommandsFacet (mergeCommandsFacet a b) c =
      mergeCommandsFacet a (mergeCommandsFacet b c) := by
  rcases a with _ | la <;> rcases b with _ | lb <;> rcases c with _ | lc <;>
    simp [mergeCommandsFacet, List.append_assoc]

theorem mergeMenusFacet_assoc (a b c : Option MenuContributions) :
    mergeMenusFacet (mergeMenusFacet a b) c = mergeMenusFacet a (mergeMenusFacet b c) := by
  rcases a with _ | ma <;> rcases b with _ | mb <;> rcases c with _ | mc <;>
    simp [mergeMenusFacet, mergeMenus_assoc]

theorem mergeStep_assoc (a b c : Contributions) :
    mergeStep (mergeStep a b) c = mergeStep a (mergeStep b c) := by
  simp only [mergeStep, mergeCommandsFacet_assoc, mergeMenusFacet_assoc]

theorem mergeContributions_eq_foldl (l : List Contributions) :
    mergeContributions l = l.foldl mergeStep {} := by
  match l with
  | [] => rfl
  | [c] => simp [mergeContributions, List.foldl, mergeStep_empty_left]
  | a :: b :: rest => rfl

theorem foldl_mergeStep_eq (a : Contributions) (l : List Contributions) :
    l.foldl mergeStep a = mergeStep a (l.foldl mergeStep {}) := by
  induction l generalizing a with
  | nil => simp [List.foldl, mergeStep_empty_right]
  | cons x rest ih =>
    simp only [List.foldl]
    rw [ih (mergeStep a x), ih (mergeStep {} x), mergeStep_empty_left, mergeStep_assoc]

theorem mergeContributions_cons (a : Contributions) (l : List Contributions) :
    mergeContributions (a :: l) = mergeStep a (mergeContributions l) := by
  rw [mergeContributions_eq_foldl, mergeContributions_eq_foldl]
  simp only [List.foldl]
  rw [foldl_mergeStep_eq, mergeStep_empty_left]

theorem mergeContributions_append (l1 l2 : List Contributions) :
    mergeContributions (l1 ++ l2) =
      mergeStep (mergeContributions l1) (mergeContributions l2) := by
  rw [mergeContributions_eq_foldl, mergeContributions_eq_foldl, mergeContributions_eq_foldl]
  rw [List.foldl_append, foldl_mergeStep_eq]

/-- Filters out items whose when-expression evaluates to false or a falsey
value (contextFilter in contribution.ts, specialised to MenuItemContribution,
its only instantiation in this module).  An item with no when expression is
always kept; items are evaluated in order and a throwing evaluation aborts the
whole call (modelled as Except.error). -/
def contextFilter {C E : Type} (evaluateExpr : String → C → Except E Bool)
    (createChildContext : C → C) (context : C) :
    List MenuItemContribution → Except E (List MenuItemContribution)
  | [] => Except.ok []
  | item :: rest =>
    match item.when with
    | none => (contextFilter evaluateExpr createChildContext context rest).map (item :: ·)
    | some w => do
      let b ← evaluateExpr w (createChildContext context)
      let keep ← contextFilter evaluateExpr createChildContext context rest
      Except.ok (if b then item :: keep else keep)

/-- One key of the filtered-menus object: an absent key stays absent, a
present key keeps its (filtered) sequence, even when the filtered sequence is
empty. -/
def filterMenu {C E : Type} (evaluateExpr : String → C → Except E Bool)
    (createChildContext : C → C) (context : C) :
    Option (List MenuItemContribution) → Except E (Option (List MenuItemContribution))
  | none => Except.ok none
  | some items => (contextFilter evaluateExpr createChildContext context items).map some

/-- Filters the contributions to only those enabled in the current context
(filterContributions in contribution.ts): if there are no menus the
contributions are returned unchanged, otherwise every present menu key is
kept and its item sequence filtered. -/
def filterContributions {C E : Type} (evaluateExpr : String → C → Except E Bool)
    (createChildContext : C → C) (context : C) (contributions : Contributions) :
    Except E Contributions :=
  match contributions.menus with
  | none => Except.ok contributions
  | some menus => do
    let commandPaletteItems ← filterMenu evaluateExpr createChildContext context
      (menus ContributableMenu.commandPalette)
    let editorTitleItems ← filterMenu evaluateExpr createChildContext context
      (menus ContributableMenu.editorTitle)
    let helpItems ← filterMenu evaluateExpr createChildContext context
      (menus ContributableMenu.help)
    Except.ok { contributions with
                menus := some (fun menu =>
                  match menu with
                  | ContributableMenu.commandPalette => commandPaletteItems
                  | ContributableMenu.editorTitle => editorTitleItems
                  | ContributableMenu.help => helpItems) }

/-- One optionally-templated display field of a command: the guard
(field truthy, i.e. present and non-empty, and needsEvaluation true) and the
template evaluation.  Mirrors one if-statement of the per-command loop of
evaluateContributions; the result is the entry written into the changed
object (some evaluated) or its absence (none). -/
def evalTemplateField {C E : Type} (evaluateTemplate : String → C → Except E String)
    (needsEvaluation : String → Bool) (childContext : C) :
    Option String → Except E (Option String)
  | none => Except.ok none
  | some s =>
    if s ≠ "" ∧ needsEvaluation s = true then
      (evaluateTemplate s childContext).map some
    else Except.ok none

/-- Applies a changed-object entry over the original field, as the object
spread over the original does per key. -/
def overrideField (changed old : Option String) : Option String :=
  match changed with
  | some v => some v
  | none => old

/-- The actionItem branch of the per-command loop of evaluateContributions
(lines 209-229 of contribution.ts): evaluate the five sub-fields
independently; if any was assigned, produce the merged action item, otherwise
none (the changed object gains no actionItem key). -/
def evaluateActionItem {C E : Type} (evaluateTemplate : String → C → Except E String)
    (needsEvaluation : String → Bool) (childContext : C) (ai : ActionItem) :
    Except E (Option ActionItem) := do
  let labelChanged ← evalTemplateField evaluateTemplate needsEvaluation childContext ai.label
  let descriptionChanged ←
    evalTemplateField evaluateTemplate needsEvaluation childContext ai.description
  let groupChanged ← evalTemplateField evaluateTemplate needsEvaluation childContext ai.group
  let iconURLChanged ← evalTemplateField evaluateTemplate needsEvaluation childContext ai.iconURL
  let iconDescriptionChanged ←
    evalTemplateField evaluateTemplate needsEvaluation childContext ai.iconDescription
  if labelChanged.isSome || descriptionChanged.isSome || groupChanged.isSome ||
      iconURLChanged.isSome || iconDescriptionChanged.isSome then
    Except.ok (some
      { label := overrideField labelChanged ai.label,
        description := overrideField descriptionChanged ai.description,
        group := overrideField groupChanged ai.group,
        iconURL := overrideField iconURLChanged ai.iconURL,
        iconDescription := overrideField iconDescriptionChanged ai.iconDescription })
  else Except.ok none

/-- The if-guard around the actionItem branch of the per-command loop (line 209
of contribution.ts): an absent actionItem contributes no changed entry. -/
def evalActionItemField {C E : Type} (evaluateTemplate : String → C → Except E String)
    (needsEvaluation : String → Bool) (childContext : C) :
    Option ActionItem → Except E (Option ActionItem)
  | none => Except.ok none
  | some ai => evaluateActionItem evaluateTemplate needsEvaluation childContext ai

/-- The body of the per-command loop of evaluateContributions (lines 194-232 of
contribution.ts).  The boolean in the result is the modified flag of line 230:
true exactly when the changed object is non-empty, i.e. when a fresh command
object is allocated by the object spread; false when the original command
object is pushed unchanged. -/
def evaluateCommand {C E : Type} (evaluateTemplate : String → C → Except E String)
    (needsEvaluation : String → Bool) (childContext : C)
    (command : CommandContribution) : Except E (CommandContribution × Bool) := do
  let titleChanged ← evalTemplateField evaluateTemplate needsEvaluation childContext command.title
  let categoryChanged ←
    evalTemplateField evaluateTemplate needsEvaluation childContext command.category
  let descriptionChanged ←
    evalTemplateField evaluateTemplate needsEvaluation childContext command.description
  let iconURLChanged ←
    evalTemplateField evaluateTemplate needsEvaluation childContext command.iconURL
  let actionItemChanged ←
    evalActionItemField evaluateTemplate needsEvaluation childContext command.actionItem
  if titleChanged.isSome || categoryChanged.isSome || descriptionChanged.isSome ||
      iconURLChanged.isSome || actionItemChanged.isSome then
    Except.ok
      ({ command with
          title := overrideField titleChanged command.title,
          category := overrideField categoryChanged command.category,
          description := overrideField descriptionChanged command.description,
          iconURL := overrideField iconURLChanged command.iconURL,
          actionItem :=
            match actionItemChanged with
            | some a => some a
            | none => command.actionItem }, true)
  else Except.ok (command, false)

/-- Evaluates template expressions in contribution definitions against the
given context (evaluateContributions in contribution.ts): if there are no
commands, or the commands list is empty, the contributions are returned
unchanged; otherwise every command is interpolated with a child context of the
current context. -/
def evaluateContributions {C E : Type} (evaluateTemplate : String → C → Except E String)
    (needsEvaluation : String → Bool) (createChildContext : C → C) (context : C)
    (contributions : Contributions) : Except E Contributions :=
  match contributions.commands with
  | none => Except.ok contributions
  | some cmds =>
    if cmds.isEmpty then Except.ok contributions
    else do
      let evaluatedCommands ← cmds.mapM (fun command =>
        (evaluateCommand evaluateTemplate needsEvaluation (createChildContext context)
          command).map Prod.fst)
      Except.ok { contributions with commands := some evaluatedCommands }

/-- Character-list version of startsWith, used for the substring check below. -/
def startsWithChars : List Char → List Char → Bool
  | [], _ => true
  | _ :: _, [] => false
  | a :: as, b :: bs => a == b && startsWithChars as bs

/-- Reports whether the pattern occurs as a contiguous run of the second list
(the semantics of String.prototype.includes). -/
def hasSubChars (pat : List Char) : List Char → Bool
  | [] => startsWithChars pat []
  | c :: rest => startsWithChars pat (c :: rest) || hasSubChars pat rest

/-- Modelled from the spec: TEMPLATE_BEGIN comes from the expression lexer
module, which is not part of the given sources; per the spec a template string
is text containing placeholders, which open with a dollar-brace marker. -/
def TEMPLATE_BEGIN : String := "$\x7b"

/-- The default needsEvaluation predicate of DEFAULT_TEMPLATE_EVALUATOR
(line 179 of contribution.ts): the string contains TEMPLATE_BEGIN. -/
def needsEvaluationDefault (template : String) : Bool :=
  hasSubChars TEMPLATE_BEGIN.data template.data

/-- The body of the try/catch of ContributionRegistry.getContributions for one
entry (lines 75-85 of contribution.ts), before the catch: filter, then
interpolate; either step may throw. -/
def evalEntryExcept {C E : Type} (evaluateExpr : String → C → Except E Bool)
    (evaluateTemplate : String → C → Except E String) (needsEvaluation : String → Bool)
    (createChildContext : C → C) (context : C) (contributions : Contributions) :
    Except E Contributions := do
  evaluateContributions evaluateTemplate needsEvaluation createChildContext context
    (← filterContributions evaluateExpr createChildContext context contributions)

/-- The try/catch of ContributionRegistry.getContributions for one entry: a
throwing evaluation discards the whole entry's output for this context,
replacing it with the empty object literal (line 84 of contribution.ts). -/
def evalEntrySafe {C E : Type} (evaluateExpr : String → C → Except E Bool)
    (evaluateTemplate : String → C → Except E String) (needsEvaluation : String → Bool)
    (createChildContext : C → C) (context : C) (contributions : Contributions) :
    Contributions :=
  match evalEntryExcept evaluateExpr evaluateTemplate needsEvaluation createChildContext
      context contributions with
  | Except.ok result => result
  | Except.error _ => {}

/-- A registered contributions entry.  The id stands for the JavaScript object
identity of the ContributionsEntry: the registry compares entries by reference,
never structurally, so two distinct registered objects with equal contributions
are distinct entries. -/
structure RegEntry where
  id : Nat
  contributions : Contributions
deriving DecidableEq

/-- The observability sink of the catch block (console.error at line 80 of
contribution.ts): the errors reported while evaluating a list of entries, in
entry order. -/
def entryErrors {C E : Type} (evaluateExpr : String → C → Except E Bool)
    (evaluateTemplate : String → C → Except E String) (needsEvaluation : String → Bool)
    (createChildContext : C → C) (context : C) (entries : List RegEntry) : List E :=
  entries.filterMap (fun e =>
    match evalEntryExcept evaluateExpr evaluateTemplate needsEvaluation createChildContext
        context e.contributions with
    | Except.ok _ => none
    | Except.error err => some err)

/-- One recomputation of the pipeline of ContributionRegistry.getContributions
(lines 72-88 of contribution.ts): evaluate every entry with per-entry fault
isolation, then merge. -/
def aggregateOf {C E : Type} (evaluateExpr : String → C → Except E Bool)
    (evaluateTemplate : String → C → Except E String) (needsEvaluation : String → Bool)
    (createChildContext : C → C) (context : C) (entries : List RegEntry) : Contributions :=
  mergeContributions (entries.map (fun e =>
    evalEntrySafe evaluateExpr evaluateTemplate needsEvaluation createChildContext context
      e.contributions))

/-- registerContributions (line 39 of contribution.ts): append the entry to the
current value of the entries subject. -/
def registerContributions (entry : RegEntry) (entries : List RegEntry) : List RegEntry :=
  entries ++ [entry]

/-- The unsubscribe closure returned by registerContributions (line 42 of
contribution.ts): remove every list position holding this entry object. -/
def deregisterEntry (entry : RegEntry) (entries : List RegEntry) : List RegEntry :=
  entries.filter (fun e => e ≠ entry)

/-- replaceContributions (line 57 of contribution.ts): one combined update that
removes the previous entry and appends the next entry, pushed to the entries
subject as a single new value. -/
def replaceContributions (previous next : RegEntry) (entries : List RegEntry) :
    List RegEntry :=
  entries.filter (fun e => e ≠ previous) ++ [next]

/-- An operation on the entry store. -/
inductive RegistryOp : Type
  | register (entry : RegEntry)
  | deregister (entry : RegEntry)
  | replace (previous next : RegEntry)
deriving DecidableEq

/-- The entry-store state reached by one operation. -/
def applyOp : RegistryOp → List RegEntry → List RegEntry
  | RegistryOp.register entry, entries => registerContributions entry entries
  | RegistryOp.deregister entry, entries => deregisterEntry entry entries
  | RegistryOp.replace previous next, entries => replaceContributions previous next entries

/-- The sequence of values pushed to the entries subject by one operation: each
of register, deregister and replace calls next exactly once, so each operation
is a single state transition. -/
def opEmissions (op : RegistryOp) (entries : List RegEntry) : List (List RegEntry) :=
  [applyOp op entries]

/-- The entry-store state reached by a sequence of operations from a starting
state. -/
def runOpsFrom (entries : List RegEntry) : List RegistryOp → List RegEntry
  | [] => entries
  | op :: rest => runOpsFrom (applyOp op entries) rest

/-- The entry-store state reached by a sequence of operations from the empty
registry. -/
def runOps (ops : List RegistryOp) : List RegEntry :=
  runOpsFrom [] ops

/-- Freshness of one operation's argument with respect to the current store:
the registered (or replacement) entry object is not already held by the store,
after removal of the replaced entry in the replace case. -/
def opFresh : RegistryOp → List RegEntry → Bool
  | RegistryOp.register entry, entries => decide (entry ∉ entries)
  | RegistryOp.deregister _, _ => true
  | RegistryOp.replace previous next, entries =>
    decide (next ∉ entries.filter (fun e => e ≠ previous))

/-- Freshness along a whole run. -/
def freshOps (entries : List RegEntry) : List RegistryOp → Bool
  | [] => true
  | op :: rest => opFresh op entries && freshOps (applyOp op entries) rest

/-- distinctUntilChanged with the deep-equality comparator (line 89 of
contribution.ts): the helper carries the last emitted value. -/
def distinctAux {A : Type} [DecidableEq A] (prev : A) : List A → List A
  | [] => []
  | b :: rest => if b = prev then distinctAux prev rest else b :: distinctAux b rest

/-- The change-detecting gate before notifying downstream: the first computed
value is always emitted, and each further value is emitted only when it differs
from the last emitted value. -/
def distinctUntilChanged {A : Type} [DecidableEq A] : List A → List A
  | [] => []
  | a :: rest => a :: distinctAux a rest

/-- The stream of aggregates observed downstream of the registry for a sequence
of recomputation triggers (combineLatest emissions, each an entry list paired
with a context snapshot): recompute per trigger, then suppress values equal to
the last published one. -/
def publishedAggregates {C E : Type} (evaluateExpr : String → C → Except E Bool)
    (evaluateTemplate : String → C → Except E String) (needsEvaluation : String → Bool)
    (createChildContext : C → C) (triggers : List (List RegEntry × C)) :
    List Contributions :=
  distinctUntilChanged (triggers.map (fun t =>
    aggregateOf evaluateExpr evaluateTemplate needsEvaluation createChildContext t.2 t.1))

/-- The commands facet of an aggregate read as a list (an absent facet reads as
the empty list). -/
def commandsList (c : Contributions) : List CommandContribution :=
  match c.commands with
  | none => []
  | some cs => cs

/-- The item sequence of an aggregate under one menu key, read as a list. -/
def menuItemsAt (c : Contributions) (menu : ContributableMenu) :
    List MenuItemContribution :=
  match c.menus with
  | none => []
  | some mm =>
    match mm menu with
    | none => []
    | some items => items

/-- Whether a menu key is present in an aggregate. -/
def menuHasKey (c : Contributions) (menu : ContributableMenu) : Bool :=
  match c.menus with
  | none => false
  | some mm => (mm menu).isSome

/-- The ok value of a fallible evaluation, if any. -/
def okValue {E A : Type} : Except E A → Option A
  | Except.ok a => some a
  | Except.error _ => none

theorem commandsList_mergeStep (a b : Contributions) :
    commandsList (mergeStep a b) = commandsList a ++ commandsList b := by
  rcases ha : a.commands with _ | la <;> rcases hb : b.commands with _ | lb <;>
    simp [mergeStep, mergeCommandsFacet, commandsList, ha, hb]

theorem menuItemsAt_mergeStep (a b : Contributions) (menu : ContributableMenu) :
    menuItemsAt (mergeStep a b) menu = menuItemsAt a menu ++ menuItemsAt b menu := by
  rcases ha : a.menus with _ | ma <;> rcases hb : b.menus with _ | mb <;>
    simp only [mergeStep, mergeMenusFacet, menuItemsAt, ha, hb]
  · rfl
  · rcases h2 : mb menu with _ | lb <;> simp
  · rcases h1 : ma menu with _ | la <;> simp
  · rcases h1 : ma menu with _ | la <;> rcases h2 : mb menu with _ | lb <;>
      simp [mergeMenus, h1, h2]

theorem menuHasKey_mergeStep (a b : Contributions) (menu : ContributableMenu) :
    menuHasKey (mergeStep a b) menu = (menuHasKey a menu || menuHasKey b menu) := by
  rcases ha : a.menus with _ | ma <;> rcases hb : b.menus with _ | mb <;>
    simp only [mergeStep, mergeMenusFacet, menuHasKey, ha, hb]
  · rfl
  · simp
  · simp
  · rcases h1 : ma menu with _ | la <;> rcases h2 : mb menu with _ | lb <;>
      simp [mergeMenus, h1, h2]

theorem commandsList_merge (l : List Contributions) :
    commandsList (mergeContributions l) = (l.map commandsList).flatten := by
  induction l with
  | nil => rfl
  | cons a rest ih =>
    rw [mergeContributions_cons, commandsList_mergeStep]
    simp [ih]

theorem menuItemsAt_merge (l : List Contributions) (menu : ContributableMenu) :
    menuItemsAt (mergeContributions l) menu = (l.map (fun c => menuItemsAt c menu)).flatten := by
  induction l with
  | nil => rfl
  | cons a rest ih =>
    rw [mergeContributions_cons, menuItemsAt_mergeStep]
    simp [ih]

theorem menuHasKey_merge (l : List Contributions) (menu : ContributableMenu) :
    menuHasKey (mergeContributions l) menu = l.any (fun c => menuHasKey c menu) := by
  induction l with
  | nil => rfl
  | cons a rest ih =>
    rw [mergeContributions_cons, menuHasKey_mergeStep]
    simp [ih]

theorem mergeContributions_empty_middle (l1 l2 : List Contributions) :
    mergeContributions (l1 ++ emptyContributions :: l2) = mergeContributions (l1 ++ l2) := by
  rw [mergeContributions_append, mergeContributions_cons, mergeContributions_append]
  rw [show emptyContributions = {} from rfl, mergeStep_empty_left]

theorem mergeContributions_groups (gs : List (List Contributions)) :
    mergeContributions (gs.map mergeContributions) = mergeContributions gs.flatten := by
  induction gs with
  | nil => rfl
  | cons g rest ih =>
    rw [List.map_cons, mergeContributions_cons, ih, List.flatten_cons,
      mergeContributions_append]

/-- A first merge input used to exhibit non-commutativity. -/
def mergeDemoA : Contributions := { commands := some [{ command := "a" }] }

/-- A second merge input used to exhibit non-commutativity. -/
def mergeDemoB : Contributions := { commands := some [{ command := "b" }] }

/-- C5: merging zero inputs yields the empty Contributions; merging one input
returns it unchanged; for any input list, the result's commands list is the
concatenation of the inputs' commands lists in input order, and each menu key
maps to the concatenation, in input order, of the inputs' item sequences for
that key, the key being present in the result exactly when some input has
it. -/
theorem c5_merge_contract :
    mergeContributions [] = emptyContributions
    ∧ (∀ c : Contributions, mergeContributions [c] = c)
    ∧ (∀ l : List Contributions,
        commandsList (mergeContributions l) = (l.map commandsList).flatten)
    ∧ (∀ (l : List Contributions) (menu : ContributableMenu),
        menuItemsAt (mergeContributions l) menu =
          (l.map (fun c => menuItemsAt c menu)).flatten
        ∧ menuHasKey (mergeContributions l) menu = l.any (fun c => menuHasKey c menu)) :=
  ⟨rfl, fun _ => rfl, commandsList_merge,
   fun l menu => ⟨menuItemsAt_merge l menu, menuHasKey_merge l menu⟩⟩

/-- C6: the empty Contributions is an identity element for merge in any
position; merge is associative for a fixed order (merging consecutive groups
and then the group results equals merging the whole list at once); and merge is
not commutative: swapping two concrete inputs changes the result. -/
theorem c6_merge_algebra :
    (∀ l1 l2 : List Contributions,
        mergeContributions (l1 ++ emptyContributions :: l2) =
          mergeContributions (l1 ++ l2))
    ∧ (∀ gs : List (List Contributions),
        mergeContributions (gs.map mergeContributions) = mergeContributions gs.flatten)
    ∧ mergeContributions [mergeDemoA, mergeDemoB] ≠
        mergeContributions [mergeDemoB, mergeDemoA] :=
  ⟨mergeContributions_empty_middle, mergeContributions_groups, by decide⟩

theorem evalEntrySafe_of_ok {C E : Type} (evaluateExpr : String → C → Except E Bool)
    (evaluateTemplate : String → C → Except E String) (needsEvaluation : String → Bool)
    (createChildContext : C → C) (context : C) (c r : Contributions)
    (h : evalEntryExcept evaluateExpr evaluateTemplate needsEvaluation createChildContext
        context c = Except.ok r) :
    evalEntrySafe evaluateExpr evaluateTemplate needsEvaluation createChildContext
      context c = r := by
  simp [evalEntrySafe, h]

theorem evalEntrySafe_of_error {C E : Type} (evaluateExpr : String → C → Except E Bool)
    (evaluateTemplate : String → C → Except E String) (needsEvaluation : String → Bool)
    (createChildContext : C → C) (context : C) (c : Contributions) (err : E)
    (h : evalEntryExcept evaluateExpr evaluateTemplate needsEvaluation createChildContext
        context c = Except.error err) :
    evalEntrySafe evaluateExpr evaluateTemplate needsEvaluation createChildContext
      context c = emptyContributions := by
  simp [evalEntrySafe, h, emptyContributions]

theorem aggregate_commands {C E : Type} (evaluateExpr : String → C → Except E Bool)
    (evaluateTemplate : String → C → Except E String) (needsEvaluation : String → Bool)
    (createChildContext : C → C) (context : C) (entries : List RegEntry) :
    commandsList (aggregateOf evaluateExpr evaluateTemplate needsEvaluation
        createChildContext context entries) =
      (((entries.map (fun e => evalEntryExcept evaluateExpr evaluateTemplate needsEvaluation
          createChildContext context e.contributions)).filterMap okValue).map
        commandsList).flatten := by
  rw [aggregateOf, commandsList_merge]
  have hcomp : (fun (e : RegEntry) => evalEntrySafe evaluateExpr evaluateTemplate
      needsEvaluation createChildContext context e.contributions) =
      (fun x => match x with
        | Except.ok r => r
        | Except.error _ => ({} : Contributions)) ∘
      (fun (e : RegEntry) => evalEntryExcept evaluateExpr evaluateTemplate needsEvaluation
        createChildContext context e.contributions) :=
    funext fun e => rfl
  rw [hcomp, ← List.map_map]
  generalize (entries.map (fun e => evalEntryExcept evaluateExpr evaluateTemplate
    needsEvaluation createChildContext context e.contributions)) = l
  induction l with
  | nil => rfl
  | cons x rest ih =>
    rcases x with err | r
    · simpa [okValue, commandsList] using ih
    · simp only [List.map_cons, List.filterMap_cons, okValue, List.flatten_cons, ih]

/-- C1: for every sequence of register/deregister/replace operations from the
empty registry and every context snapshot, the aggregate's commands list is the
concatenation, in registration order, of the filtered-and-interpolated
commands of the currently registered entries whose evaluation did not throw;
throwing entries contribute nothing.  (distinctUntilChanged never alters a
published value, so the published aggregate is aggregateOf at the current
entries and context.) -/
theorem c1_aggregate_is_concatenation {C E : Type} (evaluateExpr : String → C → Except E Bool)
    (evaluateTemplate : String → C → Except E String) (needsEvaluation : String → Bool)
    (createChildContext : C → C) (ops : List RegistryOp) (context : C) :
    commandsList (aggregateOf evaluateExpr evaluateTemplate needsEvaluation
        createChildContext context (runOps ops)) =
      ((((runOps ops).map (fun e => evalEntryExcept evaluateExpr evaluateTemplate
          needsEvaluation createChildContext context e.contributions)).filterMap
        okValue).map commandsList).flatten :=
  aggregate_commands evaluateExpr evaluateTemplate needsEvaluation createChildContext
    context (runOps ops)

/-- C2: if one entry's evaluation throws, that entry contributes the empty
Contributions, the failure is reported to the observability sink, and the
aggregate equals the merge of the evaluated contributions of the other entries,
computed exactly as they would be without the failing entry. -/
theorem c2_fault_isolation {C E : Type} (evaluateExpr : String → C → Except E Bool)
    (evaluateTemplate : String → C → Except E String) (needsEvaluation : String → Bool)
    (createChildContext : C → C) (context : C) (pre post : List RegEntry)
    (bad : RegEntry) (err : E)
    (h : evalEntryExcept evaluateExpr evaluateTemplate needsEvaluation createChildContext
        context bad.contributions = Except.error err) :
    evalEntrySafe evaluateExpr evaluateTemplate needsEvaluation createChildContext context
        bad.contributions = emptyContributions
    ∧ err ∈ entryErrors evaluateExpr evaluateTemplate needsEvaluation createChildContext
        context (pre ++ bad :: post)
    ∧ aggregateOf evaluateExpr evaluateTemplate needsEvaluation createChildContext context
        (pre ++ bad :: post) =
      aggregateOf evaluateExpr evaluateTemplate needsEvaluation createChildContext context
        (pre ++ post) := by
  refine ⟨evalEntrySafe_of_error _ _ _ _ _ _ err h, ?_, ?_⟩
  · simp [entryErrors, List.filterMap_append, h]
  · simp only [aggregateOf, List.map_append, List.map_cons]
    rw [evalEntrySafe_of_error _ _ _ _ _ _ err h, mergeContributions_empty_middle]

/-- An expression evaluator that always throws, to drive the fault-isolation
witness. -/
def demoEvalErr : String → Unit → Except Unit Bool := fun _ _ => Except.error ()

/-- A template evaluator returning the template unchanged. -/
def demoTemplateId : String → Unit → Except Unit String := fun s _ => Except.ok s

/-- An entry whose single menu item carries a when-expression, so its
evaluation throws under demoEvalErr. -/
def demoBad : RegEntry :=
  { id := 1,
    contributions :=
      { menus := some (fun menu =>
          match menu with
          | ContributableMenu.commandPalette => some [{ action := "x", when := some "cond" }]
          | _ => none) } }

/-- An entry with one plain command and no menus; its evaluation never
throws. -/
def demoGood : RegEntry :=
  { id := 0, contributions := { commands := some [{ command := "g" }] } }

theorem c2_fault_isolation_witness :
    evalEntrySafe demoEvalErr demoTemplateId needsEvaluationDefault id ()
        demoBad.contributions = emptyContributions
    ∧ () ∈ entryErrors demoEvalErr demoTemplateId needsEvaluationDefault id ()
        ([demoGood] ++ demoBad :: [])
    ∧ aggregateOf demoEvalErr demoTemplateId needsEvaluationDefault id ()
        ([demoGood] ++ demoBad :: []) =
      aggregateOf demoEvalErr demoTemplateId needsEvaluationDefault id ()
        ([demoGood] ++ []) :=
  c2_fault_isolation demoEvalErr demoTemplateId needsEvaluationDefault id ()
    [demoGood] [] demoBad () rfl

/-- C7: replace performs exactly one state transition on the entry list,
removing the previous entry and appending the next together: the operation
pushes exactly one value to the entries subject, every observable state
contains the next entry (so no state lacks both the old and the new entry),
every other registered entry survives into that state, and downstream sees
exactly one recomputation, that of the combined state. -/
theorem c7_replace_single_transition (entries : List RegEntry) (previous next : RegEntry) :
    (opEmissions (RegistryOp.replace previous next) entries).length = 1
    ∧ (∀ l ∈ opEmissions (RegistryOp.replace previous next) entries, next ∈ l)
    ∧ (∀ l ∈ opEmissions (RegistryOp.replace previous next) entries,
        ∀ e ∈ entries, e ≠ previous → e ∈ l)
    ∧ ∀ (C E : Type) (evaluateExpr : String → C → Except E Bool)
        (evaluateTemplate : String → C → Except E String)
        (needsEvaluation : String → Bool) (createChildContext : C → C) (context : C),
        (opEmissions (RegistryOp.replace previous next) entries).map
            (aggregateOf evaluateExpr evaluateTemplate needsEvaluation createChildContext
              context) =
          [aggregateOf evaluateExpr evaluateTemplate needsEvaluation createChildContext
            context (replaceContributions previous next entries)] := by
  refine ⟨rfl, ?_, ?_, fun _ _ _ _ _ _ _ => rfl⟩
  · intro l hl
    simp only [opEmissions, List.mem_singleton] at hl
    subst hl
    simp [applyOp, replaceContributions]
  · intro l hl e he hne
    simp only [opEmissions, List.mem_singleton] at hl
    subst hl
    simp only [applyOp, replaceContributions, List.mem_append, List.mem_filter]
    exact Or.inl ⟨he, by simpa using hne⟩

theorem freshOps_nodup (entries : List RegEntry) (ops : List RegistryOp)
    (hn : entries.Nodup) (h : freshOps entries ops = true) :
    (runOpsFrom entries ops).Nodup := by
  induction ops generalizing entries with
  | nil => exact hn
  | cons op rest ih =>
    simp only [freshOps, Bool.and_eq_true] at h
    refine ih (applyOp op entries) ?_ h.2
    have hf := h.1
    cases op with
    | register e =>
      simp only [opFresh, decide_eq_true_eq] at hf
      simp only [applyOp, registerContributions]
      exact hn.append (List.nodup_singleton e)
        (fun a ha hb => by simp only [List.mem_singleton] at hb; subst hb; exact hf ha)
    | deregister e =>
      exact hn.filter _
    | replace p n =>
      simp only [opFresh, decide_eq_true_eq] at hf
      simp only [applyOp, replaceContributions]
      exact (hn.filter _).append (List.nodup_singleton n)
        (fun a ha hb => by simp only [List.mem_singleton] at hb; subst hb; exact hf ha)

/-- C8 as stated is false on the code: registerContributions appends the given
entry without checking for presence, so registering the same entry object
twice from the empty registry yields a list holding that object at two
positions. -/
theorem c8_counterexample :
    runOps [RegistryOp.register demoGood, RegistryOp.register demoGood] =
      [demoGood, demoGood]
    ∧ ¬ (runOps [RegistryOp.register demoGood, RegistryOp.register demoGood]).Nodup :=
  ⟨rfl, by decide⟩

/-- C8 amended: for every sequence of register/replace/deregister operations
from the empty registry in which each register passes an entry object not
already in the store and each replace passes a new entry object not in the
store apart from the replaced one, the entry list never contains the same
entry object in two positions. -/
theorem c8_no_duplicates (ops : List RegistryOp) (h : freshOps [] ops = true) :
    (runOps ops).Nodup :=
  freshOps_nodup [] ops List.nodup_nil h

theorem c8_no_duplicates_witness :
    freshOps [] [RegistryOp.register demoGood, RegistryOp.replace demoGood demoBad] = true
    ∧ (runOps [RegistryOp.register demoGood,
        RegistryOp.replace demoGood demoBad]).Nodup :=
  ⟨by decide, c8_no_duplicates _ (by decide)⟩

theorem distinctAux_snoc_dup {A : Type} [DecidableEq A] (prev : A) (xs : List A) (a : A) :
    distinctAux prev (xs ++ [a, a]) = distinctAux prev (xs ++ [a]) := by
  induction xs generalizing prev with
  | nil => by_cases h : a = prev <;> simp [distinctAux, h]
  | cons b rest ih =>
    by_cases h : b = prev <;> simp [distinctAux, h, ih]

theorem distinctAux_snoc_length {A : Type} [DecidableEq A] (prev : A) (xs : List A)
    (a : A) :
    (distinctAux prev (xs ++ [a])).length ≤ (distinctAux prev xs).length + 1 := by
  induction xs generalizing prev with
  | nil => by_cases h : a = prev <;> simp [distinctAux, h]
  | cons b rest ih =>
    by_cases h : b = prev
    · simpa [distinctAux, h] using ih prev
    · simpa [distinctAux, h] using ih b

theorem distinctUntilChanged_snoc_dup {A : Type} [DecidableEq A] (xs : List A) (a : A) :
    distinctUntilChanged (xs ++ [a, a]) = distinctUntilChanged (xs ++ [a]) := by
  cases xs with
  | nil => simp [distinctUntilChanged, distinctAux]
  | cons x rest =>
    simp only [List.cons_append, distinctUntilChanged, distinctAux_snoc_dup]

theorem distinctUntilChanged_snoc_length {A : Type} [DecidableEq A] (xs : List A)
    (a : A) :
    (distinctUntilChanged (xs ++ [a])).length ≤ (distinctUntilChanged xs).length + 1 := by
  cases xs with
  | nil => simp [distinctUntilChanged, distinctAux]
  | cons x rest =>
    simpa [distinctUntilChanged] using distinctAux_snoc_length x rest a

/-- C9: across two consecutive recomputation triggers whose computed aggregates
are deep-equal, the second notification is suppressed: the published stream
with both triggers equals the published stream with only the first, and at most
one new-aggregate event is observed for the pair. -/
theorem c9_duplicate_suppression {C E : Type} (evaluateExpr : String → C → Except E Bool)
    (evaluateTemplate : String → C → Except E String) (needsEvaluation : String → Bool)
    (createChildContext : C → C) (ts : List (List RegEntry × C))
    (t1 t2 : List RegEntry × C)
    (h : aggregateOf evaluateExpr evaluateTemplate needsEvaluation createChildContext
        t1.2 t1.1 =
      aggregateOf evaluateExpr evaluateTemplate needsEvaluation createChildContext
        t2.2 t2.1) :
    publishedAggregates evaluateExpr evaluateTemplate needsEvaluation createChildContext
        (ts ++ [t1, t2]) =
      publishedAggregates evaluateExpr evaluateTemplate needsEvaluation createChildContext
        (ts ++ [t1])
    ∧ (publishedAggregates evaluateExpr evaluateTemplate needsEvaluation createChildContext
        (ts ++ [t1, t2])).length ≤
      (publishedAggregates evaluateExpr evaluateTemplate needsEvaluation createChildContext
        ts).length + 1 := by
  unfold publishedAggregates
  rw [List.map_append, List.map_append, List.map_cons, List.map_cons, List.map_singleton,
    List.map_nil, ← h]
  constructor
  · exact distinctUntilChanged_snoc_dup _ _
  · rw [distinctUntilChanged_snoc_dup]
    exact distinctUntilChanged_snoc_length _ _

theorem c9_duplicate_suppression_witness :
    publishedAggregates demoEvalErr demoTemplateId needsEvaluationDefault id
        ([] ++ [([demoGood], ()), ([demoGood], ())]) =
      publishedAggregates demoEvalErr demoTemplateId needsEvaluationDefault id
        ([] ++ [([demoGood], ())])
    ∧ (publishedAggregates demoEvalErr demoTemplateId needsEvaluationDefault id
        ([] ++ [([demoGood], ()), ([demoGood], ())])).length ≤
      (publishedAggregates demoEvalErr demoTemplateId needsEvaluationDefault id
        []).length + 1 :=
  c9_duplicate_suppression demoEvalErr demoTemplateId needsEvaluationDefault id
    [] ([demoGood], ()) ([demoGood], ()) rfl

theorem exceptBind_ok {E A B : Type} (a : A) (f : A → Except E B) :
    (Except.ok a : Except E A) >>= f = f a := rfl

theorem exceptBind_error {E A B : Type} (e : E) (f : A → Except E B) :
    (Except.error e : Except E A) >>= f = Except.error e := rfl

theorem exceptMap_ok {E A B : Type} (f : A → B) (a : A) :
    (Except.ok a : Except E A).map f = Except.ok (f a) := rfl

theorem exceptMap_error {E A B : Type} (f : A → B) (e : E) :
    (Except.error e : Except E A).map f = Except.error e := rfl

/-- The keep-decision of the filter, as a pure predicate: keep the item iff its
when-expression is absent or evaluates without throwing to a truthy value. -/
def keepsItem {C E : Type} (evaluateExpr : String → C → Except E Bool)
    (createChildContext : C → C) (context : C) (item : MenuItemContribution) : Bool :=
  match item.when with
  | none => true
  | some w =>
    match evaluateExpr w (createChildContext context) with
    | Except.ok b => b
    | Except.error _ => false

theorem contextFilter_ok {C E : Type} (evaluateExpr : String → C → Except E Bool)
    (createChildContext : C → C) (context : C) (items kept : List MenuItemContribution)
    (h : contextFilter evaluateExpr createChildContext context items = Except.ok kept) :
    kept = items.filter (keepsItem evaluateExpr createChildContext context) := by
  induction items generalizing kept with
  | nil =>
    simp only [contextFilter] at h
    cases h
    rfl
  | cons item rest ih =>
    cases hw : item.when with
    | none =>
      simp only [contextFilter, hw] at h
      rcases hr : contextFilter evaluateExpr createChildContext context rest with e | keepRest
      · rw [hr, exceptMap_error] at h
        cases h
      · rw [hr, exceptMap_ok] at h
        cases h
        rw [List.filter_cons, ← ih keepRest hr]
        simp [keepsItem, hw]
    | some w =>
      simp only [contextFilter, hw] at h
      rcases he : evaluateExpr w (createChildContext context) with e | b
      · rw [he, exceptBind_error] at h
        cases h
      · rw [he, exceptBind_ok] at h
        rcases hr : contextFilter evaluateExpr createChildContext context rest with e | keepRest
        · rw [hr, exceptBind_error] at h
          cases h
        · rw [hr, exceptBind_ok] at h
          cases h
          rw [List.filter_cons, ← ih keepRest hr]
          simp only [keepsItem, hw, he]

theorem filterMenu_isSome {C E : Type} (evaluateExpr : String → C → Except E Bool)
    (createChildContext : C → C) (context : C)
    (x y : Option (List MenuItemContribution))
    (h : filterMenu evaluateExpr createChildContext context x = Except.ok y) :
    y.isSome = x.isSome := by
  cases x with
  | none =>
    simp only [filterMenu] at h
    cases h
    rfl
  | some items =>
    simp only [filterMenu] at h
    rcases hr : contextFilter evaluateExpr createChildContext context items with e | keep
    · rw [hr, exceptMap_error] at h
      cases h
    · rw [hr, exceptMap_ok] at h
      cases h
      rfl

theorem filterContributions_ok {C E : Type} (evaluateExpr : String → C → Except E Bool)
    (createChildContext : C → C) (context : C) (c fc : Contributions)
    (h : filterContributions evaluateExpr createChildContext context c = Except.ok fc) :
    fc.commands = c.commands
    ∧ ∀ menu : ContributableMenu, menuHasKey fc menu = menuHasKey c menu := by
  rcases hm : c.menus with _ | menus
  · simp only [filterContributions, hm] at h
    cases h
    exact ⟨rfl, fun _ => rfl⟩
  · simp only [filterContributions, hm] at h
    rcases h1 : filterMenu evaluateExpr createChildContext context
        (menus ContributableMenu.commandPalette) with e | cp
    · rw [h1, exceptBind_error] at h
      cases h
    rw [h1, exceptBind_ok] at h
    rcases h2 : filterMenu evaluateExpr createChildContext context
        (menus ContributableMenu.editorTitle) with e | et
    · rw [h2, exceptBind_error] at h
      cases h
    rw [h2, exceptBind_ok] at h
    rcases h3 : filterMenu evaluateExpr createChildContext context
        (menus ContributableMenu.help) with e | hp
    · rw [h3, exceptBind_error] at h
      cases h
    rw [h3, exceptBind_ok] at h
    cases h
    refine ⟨rfl, fun menu => ?_⟩
    cases menu <;>
      simp only [menuHasKey, hm] <;>
      first
      | exact filterMenu_isSome _ _ _ _ _ h1
      | exact filterMenu_isSome _ _ _ _ _ h2
      | exact filterMenu_isSome _ _ _ _ _ h3

theorem evaluateContributions_menus {C E : Type}
    (evaluateTemplate : String → C → Except E String) (needsEvaluation : String → Bool)
    (createChildContext : C → C) (context : C) (c ec : Contributions)
    (h : evaluateContributions evaluateTemplate needsEvaluation createChildContext context
        c = Except.ok ec) :
    ec.menus = c.menus := by
  rcases hc : c.commands with _ | cmds
  · simp only [evaluateContributions, hc] at h
    cases h
    rfl
  · simp only [evaluateContributions, hc] at h
    by_cases he : cmds.isEmpty
    · rw [if_pos he] at h
      cases h
      rfl
    · rw [if_neg he] at h
      rcases hv : cmds.mapM (fun command =>
          (evaluateCommand evaluateTemplate needsEvaluation (createChildContext context)
            command).map Prod.fst) with e | evaluatedCommands
      · rw [hv, exceptBind_error] at h
        cases h
      · rw [hv, exceptBind_ok] at h
        cases h
        rfl

theorem evalEntryExcept_decomp {C E : Type} (evaluateExpr : String → C → Except E Bool)
    (evaluateTemplate : String → C → Except E String) (needsEvaluation : String → Bool)
    (createChildContext : C → C) (context : C) (c r : Contributions)
    (h : evalEntryExcept evaluateExpr evaluateTemplate needsEvaluation createChildContext
        context c = Except.ok r) :
    ∃ fc, filterContributions evaluateExpr createChildContext context c = Except.ok fc
      ∧ evaluateContributions evaluateTemplate needsEvaluation createChildContext context
          fc = Except.ok r
      ∧ r.menus = fc.menus := by
  unfold evalEntryExcept at h
  rcases hf : filterContributions evaluateExpr createChildContext context c with e | fc
  · rw [hf, exceptBind_error] at h
    cases h
  · rw [hf, exceptBind_ok] at h
    exact ⟨fc, rfl, h,
      evaluateContributions_menus evaluateTemplate needsEvaluation createChildContext
        context fc r h⟩

/-- C3: filtering keeps a menu item iff its when field is undefined or its
evaluation against a child context of the current context is truthy; kept items
are the original items in their original order (the result is a filter of the
input); no menu key is dropped even when its filtered sequence becomes empty,
and the commands facet passes through the filter unchanged; and the when
strings are consumed raw: the entry pipeline runs filterContributions on the
original contributions first, and interpolation never touches menus, so when
expressions are never template-interpolated. -/
theorem c3_filter_semantics {C E : Type} (evaluateExpr : String → C → Except E Bool)
    (evaluateTemplate : String → C → Except E String) (needsEvaluation : String → Bool)
    (createChildContext : C → C) (context : C) :
    (∀ items kept,
        contextFilter evaluateExpr createChildContext context items = Except.ok kept →
        kept = items.filter (keepsItem evaluateExpr createChildContext context))
    ∧ (∀ c fc,
        filterContributions evaluateExpr createChildContext context c = Except.ok fc →
        fc.commands = c.commands
        ∧ ∀ menu : ContributableMenu, menuHasKey fc menu = menuHasKey c menu)
    ∧ (∀ c ec,
        evaluateContributions evaluateTemplate needsEvaluation createChildContext context
          c = Except.ok ec → ec.menus = c.menus)
    ∧ (∀ c r,
        evalEntryExcept evaluateExpr evaluateTemplate needsEvaluation createChildContext
          context c = Except.ok r →
        ∃ fc, filterContributions evaluateExpr createChildContext context c = Except.ok fc
          ∧ evaluateContributions evaluateTemplate needsEvaluation createChildContext
              context fc = Except.ok r
          ∧ r.menus = fc.menus) :=
  ⟨fun items kept h => contextFilter_ok evaluateExpr createChildContext context items
      kept h,
   fun c fc h => filterContributions_ok evaluateExpr createChildContext context c fc h,
   fun c ec h => evaluateContributions_menus evaluateTemplate needsEvaluation
      createChildContext context c ec h,
   fun c r h => evalEntryExcept_decomp evaluateExpr evaluateTemplate needsEvaluation
      createChildContext context c r h⟩

/-- An expression evaluator for witnesses: the literal true and false strings
evaluate to the corresponding truth value, anything else throws. -/
def demoEvalBool : String → Unit → Except Unit Bool := fun w _ =>
  if w = "true" then Except.ok true
  else if w = "false" then Except.ok false
  else Except.error ()

/-- Menu items used by the filter witness. -/
def demoItems : List MenuItemContribution :=
  [{ action := "a" }, { action := "b", when := some "true" },
   { action := "c", when := some "false" }]

/-- The expected filter output for demoItems under demoEvalBool. -/
def demoKept : List MenuItemContribution :=
  [{ action := "a" }, { action := "b", when := some "true" }]

theorem c3_filter_semantics_witness :
    demoKept = demoItems.filter (keepsItem demoEvalBool id ()) :=
  (c3_filter_semantics demoEvalBool demoTemplateId needsEvaluationDefault id ()).1
    demoItems demoKept rfl

/-- Whether one optional display field passes the interpolation guard: present,
truthy (non-empty) and flagged by needsEvaluation. -/
def fieldNeedsEval (needsEvaluation : String → Bool) : Option String → Bool
  | none => false
  | some s => decide (s ≠ "" ∧ needsEvaluation s = true)

/-- Whether some sub-field of an action item passes the interpolation guard. -/
def actionItemNeedsEval (needsEvaluation : String → Bool) (ai : ActionItem) : Bool :=
  fieldNeedsEval needsEvaluation ai.label || fieldNeedsEval needsEvaluation ai.description ||
  fieldNeedsEval needsEvaluation ai.group || fieldNeedsEval needsEvaluation ai.iconURL ||
  fieldNeedsEval needsEvaluation ai.iconDescription

/-- Whether an optional action item passes the interpolation guard for some
sub-field. -/
def actionItemFieldNeedsEval (needsEvaluation : String → Bool) :
    Option ActionItem → Bool
  | none => false
  | some ai => actionItemNeedsEval needsEvaluation ai

/-- Whether some field of a command passes the interpolation guard, i.e.
whether the changed object of the per-command loop ends up non-empty. -/
def commandNeedsEval (needsEvaluation : String → Bool) (command : CommandContribution) :
    Bool :=
  fieldNeedsEval needsEvaluation command.title ||
  fieldNeedsEval needsEvaluation command.category ||
  fieldNeedsEval needsEvaluation command.description ||
  fieldNeedsEval needsEvaluation command.iconURL ||
  actionItemFieldNeedsEval needsEvaluation command.actionItem

theorem needsEvaluationDefault_empty : needsEvaluationDefault "" = false := rfl

theorem ne_empty_of_needsEvaluationDefault {s : String}
    (h : needsEvaluationDefault s = true) : s ≠ "" := by
  intro hs
  subst hs
  exact absurd h (by decide)

theorem evalTemplateField_isSome {C E : Type} (evaluateTemplate : String → C → Except E String)
    (needsEvaluation : String → Bool) (childContext : C) (f : Option String)
    (o : Option String)
    (h : evalTemplateField evaluateTemplate needsEvaluation childContext f = Except.ok o) :
    o.isSome = fieldNeedsEval needsEvaluation f := by
  cases f with
  | none =>
    simp only [evalTemplateField] at h
    cases h
    rfl
  | some s =>
    simp only [evalTemplateField] at h
    by_cases hg : s ≠ "" ∧ needsEvaluation s = true
    · rw [if_pos hg] at h
      rcases he : evaluateTemplate s childContext with e | v
      · rw [he, exceptMap_error] at h
        cases h
      · rw [he, exceptMap_ok] at h
        cases h
        simp [fieldNeedsEval, hg]
    · rw [if_neg hg] at h
      cases h
      simp [fieldNeedsEval, hg]

theorem evalTemplateField_of_guard_false {C E : Type}
    (evaluateTemplate : String → C → Except E String) (needsEvaluation : String → Bool)
    (childContext : C) (f : Option String)
    (hg : fieldNeedsEval needsEvaluation f = false) :
    evalTemplateField evaluateTemplate needsEvaluation childContext f = Except.ok none := by
  cases f with
  | none => rfl
  | some s =>
    simp only [fieldNeedsEval, decide_eq_false_iff_not] at hg
    simp only [evalTemplateField, if_neg hg]

theorem evalTemplateField_of_guard_true {C E : Type}
    (evaluateTemplate : String → C → Except E String) (needsEvaluation : String → Bool)
    (childContext : C) (s : String) (hs : s ≠ "") (hn : needsEvaluation s = true) :
    evalTemplateField evaluateTemplate needsEvaluation childContext (some s) =
      (evaluateTemplate s childContext).map some := by
  simp only [evalTemplateField, if_pos (And.intro hs hn)]

theorem evalTemplateField_congr_ne {C E : Type}
    (evaluateTemplate : String → C → Except E String) (childContext : C)
    (ne1 ne2 : String → Bool) (h : ∀ s, s ≠ "" → ne1 s = ne2 s) :
    ∀ f, evalTemplateField evaluateTemplate ne1 childContext f =
      evalTemplateField evaluateTemplate ne2 childContext f := by
  intro f
  cases f with
  | none => rfl
  | some s =>
    by_cases hs : s = ""
    · subst hs
      simp [evalTemplateField]
    · simp only [evalTemplateField, h s hs]

theorem evalTemplateField_congr_et {C E : Type} (needsEvaluation : String → Bool)
    (childContext : C) (et1 et2 : String → C → Except E String)
    (h : ∀ s, s ≠ "" → needsEvaluation s = true → et1 s childContext = et2 s childContext) :
    ∀ f, evalTemplateField et1 needsEvaluation childContext f =
      evalTemplateField et2 needsEvaluation childContext f := by
  intro f
  cases f with
  | none => rfl
  | some s =>
    simp only [evalTemplateField]
    by_cases hg : s ≠ "" ∧ needsEvaluation s = true
    · rw [if_pos hg, if_pos hg, h s hg.1 hg.2]
    · rw [if_neg hg, if_neg hg]

theorem evaluateActionItem_congr_ne {C E : Type}
    (evaluateTemplate : String → C → Except E String) (childContext : C)
    (ne1 ne2 : String → Bool) (h : ∀ s, s ≠ "" → ne1 s = ne2 s) :
    ∀ ai, evaluateActionItem evaluateTemplate ne1 childContext ai =
      evaluateActionItem evaluateTemplate ne2 childContext ai := by
  intro ai
  simp only [evaluateActionItem,
    evalTemplateField_congr_ne evaluateTemplate childContext ne1 ne2 h]

theorem evaluateActionItem_congr_et {C E : Type} (needsEvaluation : String → Bool)
    (childContext : C) (et1 et2 : String → C → Except E String)
    (h : ∀ s, s ≠ "" → needsEvaluation s = true → et1 s childContext = et2 s childContext) :
    ∀ ai, evaluateActionItem et1 needsEvaluation childContext ai =
      evaluateActionItem et2 needsEvaluation childContext ai := by
  intro ai
  simp only [evaluateActionItem,
    evalTemplateField_congr_et needsEvaluation childContext et1 et2 h]

theorem evalActionItemField_congr_ne {C E : Type}
    (evaluateTemplate : String → C → Except E String) (childContext : C)
    (ne1 ne2 : String → Bool) (h : ∀ s, s ≠ "" → ne1 s = ne2 s) :
    ∀ x, evalActionItemField evaluateTemplate ne1 childContext x =
      evalActionItemField evaluateTemplate ne2 childContext x := by
  intro x
  cases x with
  | none => rfl
  | some ai =>
    simp only [evalActionItemField,
      evaluateActionItem_congr_ne evaluateTemplate childContext ne1 ne2 h]

theorem evalActionItemField_congr_et {C E : Type} (needsEvaluation : String → Bool)
    (childContext : C) (et1 et2 : String → C → Except E String)
    (h : ∀ s, s ≠ "" → needsEvaluation s = true → et1 s childContext = et2 s childContext) :
    ∀ x, evalActionItemField et1 needsEvaluation childContext x =
      evalActionItemField et2 needsEvaluation childContext x := by
  intro x
  cases x with
  | none => rfl
  | some ai =>
    simp only [evalActionItemField,
      evaluateActionItem_congr_et needsEvaluation childContext et1 et2 h]

theorem evaluateCommand_congr_ne {C E : Type}
    (evaluateTemplate : String → C → Except E String) (childContext : C)
    (ne1 ne2 : String → Bool) (h : ∀ s, s ≠ "" → ne1 s = ne2 s) :
    ∀ command, evaluateCommand evaluateTemplate ne1 childContext command =
      evaluateCommand evaluateTemplate ne2 childContext command := by
  intro command
  simp only [evaluateCommand,
    evalTemplateField_congr_ne evaluateTemplate childContext ne1 ne2 h,
    evalActionItemField_congr_ne evaluateTemplate childContext ne1 ne2 h]

theorem evaluateCommand_congr_et {C E : Type} (needsEvaluation : String → Bool)
    (childContext : C) (et1 et2 : String → C → Except E String)
    (h : ∀ s, s ≠ "" → needsEvaluation s = true → et1 s childContext = et2 s childContext) :
    ∀ command, evaluateCommand et1 needsEvaluation childContext command =
      evaluateCommand et2 needsEvaluation childContext command := by
  intro command
  simp only [evaluateCommand,
    evalTemplateField_congr_et needsEvaluation childContext et1 et2 h,
    evalActionItemField_congr_et needsEvaluation childContext et1 et2 h]

theorem evaluateActionItem_ok {C E : Type} (evaluateTemplate : String → C → Except E String)
    (needsEvaluation : String → Bool) (childContext : C) (ai : ActionItem)
    (out : Option ActionItem)
    (h : evaluateActionItem evaluateTemplate needsEvaluation childContext ai =
      Except.ok out) :
    ∃ lC dC gC iC idC,
      evalTemplateField evaluateTemplate needsEvaluation childContext ai.label =
        Except.ok lC
      ∧ evalTemplateField evaluateTemplate needsEvaluation childContext ai.description =
          Except.ok dC
      ∧ evalTemplateField evaluateTemplate needsEvaluation childContext ai.group =
          Except.ok gC
      ∧ evalTemplateField evaluateTemplate needsEvaluation childContext ai.iconURL =
          Except.ok iC
      ∧ evalTemplateField evaluateTemplate needsEvaluation childContext ai.iconDescription =
          Except.ok idC
      ∧ out = (if lC.isSome || dC.isSome || gC.isSome || iC.isSome || idC.isSome then
          some { label := overrideField lC ai.label,
                 description := overrideField dC ai.description,
                 group := overrideField gC ai.group,
                 iconURL := overrideField iC ai.iconURL,
                 iconDescription := overrideField idC ai.iconDescription }
        else none) := by
  unfold evaluateActionItem at h
  rcases h1 : evalTemplateField evaluateTemplate needsEvaluation childContext ai.label
    with e | lC
  · rw [h1, exceptBind_error] at h
    cases h
  rw [h1, exceptBind_ok] at h
  rcases h2 : evalTemplateField evaluateTemplate needsEvaluation childContext ai.description
    with e | dC
  · rw [h2, exceptBind_error] at h
    cases h
  rw [h2, exceptBind_ok] at h
  rcases h3 : evalTemplateField evaluateTemplate needsEvaluation childContext ai.group
    with e | gC
  · rw [h3, exceptBind_error] at h
    cases h
  rw [h3, exceptBind_ok] at h
  rcases h4 : evalTemplateField evaluateTemplate needsEvaluation childContext ai.iconURL
    with e | iC
  · rw [h4, exceptBind_error] at h
    cases h
  rw [h4, exceptBind_ok] at h
  rcases h5 : evalTemplateField evaluateTemplate needsEvaluation childContext
      ai.iconDescription with e | idC
  · rw [h5, exceptBind_error] at h
    cases h
  rw [h5, exceptBind_ok] at h
  refine ⟨lC, dC, gC, iC, idC, rfl, rfl, rfl, rfl, rfl, ?_⟩
  by_cases hc : (lC.isSome || dC.isSome || gC.isSome || iC.isSome || idC.isSome) = true
  · rw [if_pos hc] at h
    cases h
    rw [if_pos hc]
  · rw [if_neg hc] at h
    cases h
    rw [if_neg hc]

theorem evaluateCommand_ok {C E : Type} (evaluateTemplate : String → C → Except E String)
    (needsEvaluation : String → Bool) (childContext : C) (command : CommandContribution)
    (res : CommandContribution) (m : Bool)
    (h : evaluateCommand evaluateTemplate needsEvaluation childContext command =
      Except.ok (res, m)) :
    ∃ tC cC dC iC aC,
      evalTemplateField evaluateTemplate needsEvaluation childContext command.title =
        Except.ok tC
      ∧ evalTemplateField evaluateTemplate needsEvaluation childContext command.category =
          Except.ok cC
      ∧ evalTemplateField evaluateTemplate needsEvaluation childContext
          command.description = Except.ok dC
      ∧ evalTemplateField evaluateTemplate needsEvaluation childContext command.iconURL =
          Except.ok iC
      ∧ evalActionItemField evaluateTemplate needsEvaluation childContext
          command.actionItem = Except.ok aC
      ∧ res = (if tC.isSome || cC.isSome || dC.isSome || iC.isSome || aC.isSome then
          { command with
              title := overrideField tC command.title,
              category := overrideField cC command.category,
              description := overrideField dC command.description,
              iconURL := overrideField iC command.iconURL,
              actionItem :=
                match aC with
                | some a => some a
                | none => command.actionItem }
        else command)
      ∧ m = (tC.isSome || cC.isSome || dC.isSome || iC.isSome || aC.isSome) := by
  unfold evaluateCommand at h
  rcases h1 : evalTemplateField evaluateTemplate needsEvaluation childContext command.title
    with e | tC
  · rw [h1, exceptBind_error] at h
    cases h
  rw [h1, exceptBind_ok] at h
  rcases h2 : evalTemplateField evaluateTemplate needsEvaluation childContext
      command.category with e | cC
  · rw [h2, exceptBind_error] at h
    cases h
  rw [h2, exceptBind_ok] at h
  rcases h3 : evalTemplateField evaluateTemplate needsEvaluation childContext
      command.description with e | dC
  · rw [h3, exceptBind_error] at h
    cases h
  rw [h3, exceptBind_ok] at h
  rcases h4 : evalTemplateField evaluateTemplate needsEvaluation childContext
      command.iconURL with e | iC
  · rw [h4, exceptBind_error] at h
    cases h
  rw [h4, exceptBind_ok] at h
  rcases h5 : evalActionItemField evaluateTemplate needsEvaluation childContext
      command.actionItem with e | aC
  · rw [h5, exceptBind_error] at h
    cases h
  rw [h5, exceptBind_ok] at h
  refine ⟨tC, cC, dC, iC, aC, rfl, rfl, rfl, rfl, rfl, ?_⟩
  by_cases hc : (tC.isSome || cC.isSome || dC.isSome || iC.isSome || aC.isSome) = true
  · rw [if_pos hc] at h
    simp only [Except.ok.injEq, Prod.mk.injEq] at h
    obtain ⟨hres, hm⟩ := h
    subst hres
    subst hm
    exact ⟨by rw [if_pos hc], hc.symm⟩
  · rw [if_neg hc] at h
    simp only [Except.ok.injEq, Prod.mk.injEq] at h
    obtain ⟨hres, hm⟩ := h
    subst hres
    subst hm
    refine ⟨by rw [if_neg hc], ?_⟩
    simp only [Bool.not_eq_true] at hc
    exact hc.symm

theorem option_none_of_isSome_false {A : Type} {x : Option A} (h : x.isSome = false) :
    x = none := by
  cases x
  · rfl
  · simp at h

/-- Applies the actionItem entry of the changed object over the original
action item, as the final object spread does. -/
def appliedActionItem (ai : ActionItem) (out : Option ActionItem) : ActionItem :=
  match out with
  | some a => a
  | none => ai

theorem overrideField_of_empty {C E : Type} (evaluateTemplate : String → C → Except E String)
    (needsEvaluation : String → Bool) (childContext : C) (f fC : Option String)
    (hf : evalTemplateField evaluateTemplate needsEvaluation childContext f = Except.ok fC)
    (hemp : f = none ∨ f = some "") : overrideField fC f = f := by
  have hg : fieldNeedsEval needsEvaluation f = false := by
    rcases hemp with h' | h' <;> subst h' <;> simp [fieldNeedsEval]
  have h0 := evalTemplateField_of_guard_false evaluateTemplate needsEvaluation childContext
    f hg
  have hx : fC = none := Except.ok.inj (hf.symm.trans h0)
  subst hx
  rfl

theorem evaluateCommand_fields {C E : Type} (evaluateTemplate : String → C → Except E String)
    (needsEvaluation : String → Bool) (childContext : C) (command : CommandContribution)
    (res : CommandContribution) (m : Bool)
    (h : evaluateCommand evaluateTemplate needsEvaluation childContext command =
      Except.ok (res, m)) :
    ∃ tC cC dC iC aC,
      evalTemplateField evaluateTemplate needsEvaluation childContext command.title =
        Except.ok tC
      ∧ evalTemplateField evaluateTemplate needsEvaluation childContext command.category =
          Except.ok cC
      ∧ evalTemplateField evaluateTemplate needsEvaluation childContext
          command.description = Except.ok dC
      ∧ evalTemplateField evaluateTemplate needsEvaluation childContext command.iconURL =
          Except.ok iC
      ∧ evalActionItemField evaluateTemplate needsEvaluation childContext
          command.actionItem = Except.ok aC
      ∧ res.title = overrideField tC command.title
      ∧ res.category = overrideField cC command.category
      ∧ res.description = overrideField dC command.description
      ∧ res.iconURL = overrideField iC command.iconURL
      ∧ res.actionItem = (match aC with
          | some a => some a
          | none => command.actionItem)
      ∧ (m = false → res = command)
      ∧ m = (tC.isSome || cC.isSome || dC.isSome || iC.isSome || aC.isSome) := by
  obtain ⟨tC, cC, dC, iC, aC, h1, h2, h3, h4, h5, hres, hm⟩ :=
    evaluateCommand_ok evaluateTemplate needsEvaluation childContext command res m h
  by_cases hc : (tC.isSome || cC.isSome || dC.isSome || iC.isSome || aC.isSome) = true
  · rw [if_pos hc] at hres
    subst hres
    refine ⟨tC, cC, dC, iC, aC, h1, h2, h3, h4, h5, rfl, rfl, rfl, rfl, rfl, ?_, hm⟩
    intro hm0
    exact Bool.noConfusion ((hm0.symm.trans hm).trans hc)
  · rw [if_neg hc] at hres
    subst hres
    have e1 : tC = none := by
      cases tC with
      | none => rfl
      | some v => exact absurd (by simp) hc
    have e2 : cC = none := by
      cases cC with
      | none => rfl
      | some v => exact absurd (by simp) hc
    have e3 : dC = none := by
      cases dC with
      | none => rfl
      | some v => exact absurd (by simp) hc
    have e4 : iC = none := by
      cases iC with
      | none => rfl
      | some v => exact absurd (by simp) hc
    have e5 : aC = none := by
      cases aC with
      | none => rfl
      | some v => exact absurd (by simp) hc
    subst e1
    subst e2
    subst e3
    subst e4
    subst e5
    exact ⟨none, none, none, none, none, h1, h2, h3, h4, h5, rfl, rfl, rfl, rfl, rfl,
      fun _ => rfl, hm⟩

theorem evaluateActionItem_fields {C E : Type}
    (evaluateTemplate : String → C → Except E String) (needsEvaluation : String → Bool)
    (childContext : C) (ai : ActionItem) (out : Option ActionItem)
    (h : evaluateActionItem evaluateTemplate needsEvaluation childContext ai =
      Except.ok out) :
    ∃ lC dC gC iC idC,
      evalTemplateField evaluateTemplate needsEvaluation childContext ai.label =
        Except.ok lC
      ∧ evalTemplateField evaluateTemplate needsEvaluation childContext ai.description =
          Except.ok dC
      ∧ evalTemplateField evaluateTemplate needsEvaluation childContext ai.group =
          Except.ok gC
      ∧ evalTemplateField evaluateTemplate needsEvaluation childContext ai.iconURL =
          Except.ok iC
      ∧ evalTemplateField evaluateTemplate needsEvaluation childContext ai.iconDescription =
          Except.ok idC
      ∧ (appliedActionItem ai out).label = overrideField lC ai.label
      ∧ (appliedActionItem ai out).description = overrideField dC ai.description
      ∧ (appliedActionItem ai out).group = overrideField gC ai.group
      ∧ (appliedActionItem ai out).iconURL = overrideField iC ai.iconURL
      ∧ (appliedActionItem ai out).iconDescription = overrideField idC ai.iconDescription
      ∧ out.isSome =
          (lC.isSome || dC.isSome || gC.isSome || iC.isSome || idC.isSome) := by
  obtain ⟨lC, dC, gC, iC, idC, g1, g2, g3, g4, g5, hout⟩ :=
    evaluateActionItem_ok evaluateTemplate needsEvaluation childContext ai out h
  by_cases hc : (lC.isSome || dC.isSome || gC.isSome || iC.isSome || idC.isSome) = true
  · rw [if_pos hc] at hout
    subst hout
    exact ⟨lC, dC, gC, iC, idC, g1, g2, g3, g4, g5, rfl, rfl, rfl, rfl, rfl,
      by simp [hc]⟩
  · rw [if_neg hc] at hout
    subst hout
    have e1 : lC = none := by
      cases lC with
      | none => rfl
      | some v => exact absurd (by simp) hc
    have e2 : dC = none := by
      cases dC with
      | none => rfl
      | some v => exact absurd (by simp) hc
    have e3 : gC = none := by
      cases gC with
      | none => rfl
      | some v => exact absurd (by simp) hc
    have e4 : iC = none := by
      cases iC with
      | none => rfl
      | some v => exact absurd (by simp) hc
    have e5 : idC = none := by
      cases idC with
      | none => rfl
      | some v => exact absurd (by simp) hc
    subst e1
    subst e2
    subst e3
    subst e4
    subst e5
    exact ⟨none, none, none, none, none, g1, g2, g3, g4, g5, rfl, rfl, rfl, rfl, rfl, rfl⟩

theorem evalActionItemField_isSome {C E : Type}
    (evaluateTemplate : String → C → Except E String) (needsEvaluation : String → Bool)
    (childContext : C) (x : Option ActionItem) (out : Option ActionItem)
    (h : evalActionItemField evaluateTemplate needsEvaluation childContext x =
      Except.ok out) :
    out.isSome = actionItemFieldNeedsEval needsEvaluation x := by
  cases x with
  | none =>
    simp only [evalActionItemField] at h
    cases h
    rfl
  | some ai =>
    simp only [evalActionItemField] at h
    obtain ⟨lC, dC, gC, iC, idC, g1, g2, g3, g4, g5, _, _, _, _, _, hsome⟩ :=
      evaluateActionItem_fields evaluateTemplate needsEvaluation childContext ai out h
    rw [hsome,
      evalTemplateField_isSome evaluateTemplate needsEvaluation childContext ai.label lC g1,
      evalTemplateField_isSome evaluateTemplate needsEvaluation childContext ai.description
        dC g2,
      evalTemplateField_isSome evaluateTemplate needsEvaluation childContext ai.group gC g3,
      evalTemplateField_isSome evaluateTemplate needsEvaluation childContext ai.iconURL
        iC g4,
      evalTemplateField_isSome evaluateTemplate needsEvaluation childContext
        ai.iconDescription idC g5]
    rfl

theorem evalTemplateField_fact {C E : Type} (evaluateTemplate : String → C → Except E String)
    (childContext : C) (f fC : Option String)
    (h : evalTemplateField evaluateTemplate needsEvaluationDefault childContext f =
      Except.ok fC) :
    ∀ s, f = some s →
      (needsEvaluationDefault s = true →
        ∃ v, evaluateTemplate s childContext = Except.ok v ∧ overrideField fC f = some v)
      ∧ (needsEvaluationDefault s = false → overrideField fC f = f) := by
  intro s hs
  subst hs
  constructor
  · intro hn
    have hs' : s ≠ "" := ne_empty_of_needsEvaluationDefault hn
    have h0 := evalTemplateField_of_guard_true evaluateTemplate needsEvaluationDefault
      childContext s hs' hn
    rw [h0] at h
    rcases he : evaluateTemplate s childContext with e | v
    · rw [he, exceptMap_error] at h
      cases h
    · rw [he, exceptMap_ok] at h
      have hv : some v = fC := Except.ok.inj h
      exact ⟨v, rfl, by rw [← hv]; rfl⟩
  · intro hn
    have hg : fieldNeedsEval needsEvaluationDefault (some s) = false := by
      simp [fieldNeedsEval, hn]
    have h0 := evalTemplateField_of_guard_false evaluateTemplate needsEvaluationDefault
      childContext (some s) hg
    have hx : fC = none := Except.ok.inj (h.symm.trans h0)
    subst hx
    rfl

/-- C10: a display field that is absent or the empty string is left unchanged
by interpolation — each field is guarded by a truthiness check before the
needsEvaluation shortcut — and such a field is never passed to needsEvaluation
or to the template evaluator: the result is invariant under changing either
collaborator on the empty string, so an empty field is never interpolated even
if needsEvaluation would return true for it. -/
theorem c10_truthiness_guard {C E : Type} (evaluateTemplate : String → C → Except E String)
    (needsEvaluation : String → Bool) (childContext : C) :
    (∀ command res m,
        evaluateCommand evaluateTemplate needsEvaluation childContext command =
          Except.ok (res, m) →
        ((command.title = none ∨ command.title = some "") → res.title = command.title)
        ∧ ((command.category = none ∨ command.category = some "") →
            res.category = command.category)
        ∧ ((command.description = none ∨ command.description = some "") →
            res.description = command.description)
        ∧ ((command.iconURL = none ∨ command.iconURL = some "") →
            res.iconURL = command.iconURL)
        ∧ (∀ ai, command.actionItem = some ai →
            ∃ rai, res.actionItem = some rai
              ∧ ((ai.label = none ∨ ai.label = some "") → rai.label = ai.label)
              ∧ ((ai.description = none ∨ ai.description = some "") →
                  rai.description = ai.description)
              ∧ ((ai.group = none ∨ ai.group = some "") → rai.group = ai.group)
              ∧ ((ai.iconURL = none ∨ ai.iconURL = some "") → rai.iconURL = ai.iconURL)
              ∧ ((ai.iconDescription = none ∨ ai.iconDescription = some "") →
                  rai.iconDescription = ai.iconDescription)))
    ∧ (∀ ne2 : String → Bool, (∀ s, s ≠ "" → needsEvaluation s = ne2 s) →
        ∀ command, evaluateCommand evaluateTemplate needsEvaluation childContext command =
          evaluateCommand evaluateTemplate ne2 childContext command)
    ∧ (∀ et2 : String → C → Except E String,
        (∀ s, s ≠ "" → evaluateTemplate s childContext = et2 s childContext) →
        ∀ command, evaluateCommand evaluateTemplate needsEvaluation childContext command =
          evaluateCommand et2 needsEvaluation childContext command) := by
  refine ⟨?_, ?_, ?_⟩
  · intro command res m h
    obtain ⟨tC, cC, dC, iC, aC, h1, h2, h3, h4, h5, r1, r2, r3, r4, r5, _, _⟩ :=
      evaluateCommand_fields evaluateTemplate needsEvaluation childContext command res m h
    refine ⟨?_, ?_, ?_, ?_, ?_⟩
    · intro hemp
      rw [r1, overrideField_of_empty evaluateTemplate needsEvaluation childContext _ _
        h1 hemp]
    · intro hemp
      rw [r2, overrideField_of_empty evaluateTemplate needsEvaluation childContext _ _
        h2 hemp]
    · intro hemp
      rw [r3, overrideField_of_empty evaluateTemplate needsEvaluation childContext _ _
        h3 hemp]
    · intro hemp
      rw [r4, overrideField_of_empty evaluateTemplate needsEvaluation childContext _ _
        h4 hemp]
    · intro ai hai
      rw [hai] at h5
      simp only [evalActionItemField] at h5
      obtain ⟨lC, dC2, gC, iC2, idC, g1, g2, g3, g4, g5, p1, p2, p3, p4, p5, _⟩ :=
        evaluateActionItem_fields evaluateTemplate needsEvaluation childContext ai aC h5
      refine ⟨appliedActionItem ai aC, ?_, ?_, ?_, ?_, ?_, ?_⟩
      · rw [r5, hai]
        cases aC <;> rfl
      · intro hemp
        rw [p1, overrideField_of_empty evaluateTemplate needsEvaluation childContext _ _
          g1 hemp]
      · intro hemp
        rw [p2, overrideField_of_empty evaluateTemplate needsEvaluation childContext _ _
          g2 hemp]
      · intro hemp
        rw [p3, overrideField_of_empty evaluateTemplate needsEvaluation childContext _ _
          g3 hemp]
      · intro hemp
        rw [p4, overrideField_of_empty evaluateTemplate needsEvaluation childContext _ _
          g4 hemp]
      · intro hemp
        rw [p5, overrideField_of_empty evaluateTemplate needsEvaluation childContext _ _
          g5 hemp]
  · intro ne2 hne command
    exact evaluateCommand_congr_ne evaluateTemplate childContext needsEvaluation ne2 hne
      command
  · intro et2 het command
    exact evaluateCommand_congr_et needsEvaluation childContext evaluateTemplate et2
      (fun s hs _ => het s hs) command

/-- A template evaluator returning a fixed string, used to make interpolation
observable in witnesses. -/
def demoConstTemplate : String → Unit → Except Unit String := fun _ _ => Except.ok "X"

/-- A needs-evaluation predicate that claims every string, including the empty
one, needs evaluation. -/
def demoAlwaysNeeds : String → Bool := fun _ => true

/-- A needs-evaluation predicate agreeing with demoAlwaysNeeds on every
non-empty string. -/
def demoNeedsNonempty : String → Bool := fun s => !(s == "")

/-- A command whose only present display field is an empty title. -/
def demoEmptyTitleCommand : CommandContribution := { command := "e", title := some "" }

theorem c10_truthiness_guard_witness :
    evaluateCommand demoConstTemplate demoAlwaysNeeds () demoEmptyTitleCommand =
      evaluateCommand demoConstTemplate demoNeedsNonempty () demoEmptyTitleCommand :=
  (c10_truthiness_guard demoConstTemplate demoAlwaysNeeds ()).2.1 demoNeedsNonempty
    (fun s hs => by simp [demoAlwaysNeeds, demoNeedsNonempty, hs]) demoEmptyTitleCommand

/-- A command whose title is a template string (it contains TEMPLATE_BEGIN). -/
def demoTemplatedCommand : CommandContribution :=
  { command := "c", title := some "$\x7bx\x7d" }

/-- C4 as stated is false on the code: the modified flag (line 230 of
contribution.ts) is set whenever some field was evaluated, not when a field
value actually changed.  With a template evaluator that returns the template
unchanged (as the real evaluator does for a template that resolves to its own
text), the command is rebuilt as a fresh object (flag true) although every
field of the result equals the original. -/
theorem c4_identity_counterexample :
    evaluateCommand demoTemplateId needsEvaluationDefault () demoTemplatedCommand =
      Except.ok (demoTemplatedCommand, true) := by
  rfl

/-- C4 amended: with the default needsEvaluation predicate, each present
display field (top-level and ActionItem sub-fields independently) is replaced
by the template evaluation exactly when needsEvaluation holds of it, and is
left untouched otherwise; a field with needsEvaluation false is never passed to
the evaluator (the result is invariant under changing the evaluator outside
needsEvaluation-true strings); and a fresh command object is allocated (the
modified flag is set) if and only if at least one field was evaluated — the
evaluated value may equal the original, so object identity, not value change,
is what the flag tracks; when no field is evaluated the original object is
reused. -/
theorem c4_interpolation_contract {C E : Type}
    (evaluateTemplate : String → C → Except E String) (childContext : C) :
    (∀ command res m,
        evaluateCommand evaluateTemplate needsEvaluationDefault childContext command =
          Except.ok (res, m) →
        (∀ s, command.title = some s →
           (needsEvaluationDefault s = true →
              ∃ v, evaluateTemplate s childContext = Except.ok v ∧ res.title = some v)
           ∧ (needsEvaluationDefault s = false → res.title = command.title))
        ∧ (∀ s, command.category = some s →
           (needsEvaluationDefault s = true →
              ∃ v, evaluateTemplate s childContext = Except.ok v ∧ res.category = some v)
           ∧ (needsEvaluationDefault s = false → res.category = command.category))
        ∧ (∀ s, command.description = some s →
           (needsEvaluationDefault s = true →
              ∃ v, evaluateTemplate s childContext = Except.ok v ∧
                res.description = some v)
           ∧ (needsEvaluationDefault s = false → res.description = command.description))
        ∧ (∀ s, command.iconURL = some s →
           (needsEvaluationDefault s = true →
              ∃ v, evaluateTemplate s childContext = Except.ok v ∧ res.iconURL = some v)
           ∧ (needsEvaluationDefault s = false → res.iconURL = command.iconURL))
        ∧ (∀ ai, command.actionItem = some ai →
            ∃ rai, res.actionItem = some rai
              ∧ (∀ s, ai.label = some s →
                 (needsEvaluationDefault s = true →
                    ∃ v, evaluateTemplate s childContext = Except.ok v ∧
                      rai.label = some v)
                 ∧ (needsEvaluationDefault s = false → rai.label = ai.label))
              ∧ (∀ s, ai.description = some s →
                 (needsEvaluationDefault s = true →
                    ∃ v, evaluateTemplate s childContext = Except.ok v ∧
                      rai.description = some v)
                 ∧ (needsEvaluationDefault s = false → rai.description = ai.description))
              ∧ (∀ s, ai.group = some s →
                 (needsEvaluationDefault s = true →
                    ∃ v, evaluateTemplate s childContext = Except.ok v ∧
                      rai.group = some v)
                 ∧ (needsEvaluationDefault s = false → rai.group = ai.group))
              ∧ (∀ s, ai.iconURL = some s →
                 (needsEvaluationDefault s = true →
                    ∃ v, evaluateTemplate s childContext = Except.ok v ∧
                      rai.iconURL = some v)
                 ∧ (needsEvaluationDefault s = false → rai.iconURL = ai.iconURL))
              ∧ (∀ s, ai.iconDescription = some s →
                 (needsEvaluationDefault s = true →
                    ∃ v, evaluateTemplate s childContext = Except.ok v ∧
                      rai.iconDescription = some v)
                 ∧ (needsEvaluationDefault s = false →
                      rai.iconDescription = ai.iconDescription)))
        ∧ (m = false → res = command)
        ∧ m = commandNeedsEval needsEvaluationDefault command)
    ∧ (∀ et2 : String → C → Except E String,
        (∀ s, needsEvaluationDefault s = true →
          evaluateTemplate s childContext = et2 s childContext) →
        ∀ command,
          evaluateCommand evaluateTemplate needsEvaluationDefault childContext command =
            evaluateCommand et2 needsEvaluationDefault childContext command) := by
  constructor
  · intro command res m h
    obtain ⟨tC, cC, dC, iC, aC, h1, h2, h3, h4, h5, r1, r2, r3, r4, r5, rm, hm⟩ :=
      evaluateCommand_fields evaluateTemplate needsEvaluationDefault childContext command
        res m h
    refine ⟨?_, ?_, ?_, ?_, ?_, rm, ?_⟩
    · intro s hs
      have ff := evalTemplateField_fact evaluateTemplate childContext command.title tC
        h1 s hs
      exact ⟨fun hn => by
          obtain ⟨v, hv, hov⟩ := ff.1 hn
          exact ⟨v, hv, by rw [r1]; exact hov⟩,
        fun hn => by rw [r1]; exact ff.2 hn⟩
    · intro s hs
      have ff := evalTemplateField_fact evaluateTemplate childContext command.category cC
        h2 s hs
      exact ⟨fun hn => by
          obtain ⟨v, hv, hov⟩ := ff.1 hn
          exact ⟨v, hv, by rw [r2]; exact hov⟩,
        fun hn => by rw [r2]; exact ff.2 hn⟩
    · intro s hs
      have ff := evalTemplateField_fact evaluateTemplate childContext command.description
        dC h3 s hs
      exact ⟨fun hn => by
          obtain ⟨v, hv, hov⟩ := ff.1 hn
          exact ⟨v, hv, by rw [r3]; exact hov⟩,
        fun hn => by rw [r3]; exact ff.2 hn⟩
    · intro s hs
      have ff := evalTemplateField_fact evaluateTemplate childContext command.iconURL iC
        h4 s hs
      exact ⟨fun hn => by
          obtain ⟨v, hv, hov⟩ := ff.1 hn
          exact ⟨v, hv, by rw [r4]; exact hov⟩,
        fun hn => by rw [r4]; exact ff.2 hn⟩
    · intro ai hai
      rw [hai] at h5
      simp only [evalActionItemField] at h5
      obtain ⟨lC, dC2, gC, iC2, idC, g1, g2, g3, g4, g5, p1, p2, p3, p4, p5, _⟩ :=
        evaluateActionItem_fields evaluateTemplate needsEvaluationDefault childContext
          ai aC h5
      refine ⟨appliedActionItem ai aC, by rw [r5, hai]; cases aC <;> rfl,
        ?_, ?_, ?_, ?_, ?_⟩
      · intro s hs
        have ff := evalTemplateField_fact evaluateTemplate childContext ai.label lC g1 s hs
        exact ⟨fun hn => by
            obtain ⟨v, hv, hov⟩ := ff.1 hn
            exact ⟨v, hv, by rw [p1]; exact hov⟩,
          fun hn => by rw [p1]; exact ff.2 hn⟩
      · intro s hs
        have ff := evalTemplateField_fact evaluateTemplate childContext ai.description dC2
          g2 s hs
        exact ⟨fun hn => by
            obtain ⟨v, hv, hov⟩ := ff.1 hn
            exact ⟨v, hv, by rw [p2]; exact hov⟩,
          fun hn => by rw [p2]; exact ff.2 hn⟩
      · intro s hs
        have ff := evalTemplateField_fact evaluateTemplate childContext ai.group gC g3 s hs
        exact ⟨fun hn => by
            obtain ⟨v, hv, hov⟩ := ff.1 hn
            exact ⟨v, hv, by rw [p3]; exact hov⟩,
          fun hn => by rw [p3]; exact ff.2 hn⟩
      · intro s hs
        have ff := evalTemplateField_fact evaluateTemplate childContext ai.iconURL iC2
          g4 s hs
        exact ⟨fun hn => by
            obtain ⟨v, hv, hov⟩ := ff.1 hn
            exact ⟨v, hv, by rw [p4]; exact hov⟩,
          fun hn => by rw [p4]; exact ff.2 hn⟩
      · intro s hs
        have ff := evalTemplateField_fact evaluateTemplate childContext ai.iconDescription
          idC g5 s hs
        exact ⟨fun hn => by
            obtain ⟨v, hv, hov⟩ := ff.1 hn
            exact ⟨v, hv, by rw [p5]; exact hov⟩,
          fun hn => by rw [p5]; exact ff.2 hn⟩
    · rw [hm]
      simp only [commandNeedsEval]
      rw [← evalTemplateField_isSome evaluateTemplate needsEvaluationDefault childContext
          command.title tC h1,
        ← evalTemplateField_isSome evaluateTemplate needsEvaluationDefault childContext
          command.category cC h2,
        ← evalTemplateField_isSome evaluateTemplate needsEvaluationDefault childContext
          command.description dC h3,
        ← evalTemplateField_isSome evaluateTemplate needsEvaluationDefault childContext
          command.iconURL iC h4,
        ← evalActionItemField_isSome evaluateTemplate needsEvaluationDefault childContext
          command.actionItem aC h5]
  · intro et2 het command
    exact evaluateCommand_congr_et needsEvaluationDefault childContext evaluateTemplate
      et2 (fun s _ hn => het s hn) command

theorem c4_interpolation_contract_witness :
    true = commandNeedsEval needsEvaluationDefault demoTemplatedCommand :=
  (((c4_interpolation_contract demoTemplateId ()).1 demoTemplatedCommand
    demoTemplatedCommand true rfl).2.2.2.2.2.2)
